import Mathlib

/-!
Shallow embedding of the feature-branching integration pipeline
(`main.go` of josedpiambav/feature-branching) and proofs about it.

The program selects open pull requests against a trunk branch, filters
them by required labels, rebuilds a target branch from trunk, squash
integrates each qualifying pull request in turn (skipping failures),
records the successful integrations in a history file, commits it and
force-pushes the target branch.

External effects (git subprocesses, the GitHub API, the clock, the
filesystem) are modelled by explicit environment records whose fields
give each external call's outcome; the Go control flow is translated
function by function.
-/

namespace FeatureBranching

/-- Embeds Go `strings.ToLower` restricted to ASCII (the program compares
labels after lowercasing; `Char.toLower` agrees with Go on ASCII, which is
the only alphabet the configuration and label strings use here). -/
def lower (s : String) : String :=
  String.mk (s.data.map Char.toLower)

/-- Embeds `GitHubPR` of `main.go` (the simplified pull-request shape the
program works with): number, title, state, creation timestamp string,
base branch ref, label names. -/
structure GitHubPR where
  number : Nat
  title : String
  state : String
  createdAt : String
  baseRef : String
  labels : List String
deriving DecidableEq, Repr

/-- Embeds `MergeRecord` of `main.go`: one record per merged pull request.
The timestamp is modelled as a `Nat` supplied by the clock environment. -/
structure MergeRecord where
  pr : Nat
  commit : String
  timestamp : Nat
deriving DecidableEq, Repr

/-- Embeds `RefHistory` of `main.go`: the structured document persisted to
the `.ref-history` file. -/
structure RefHistory where
  merges : List MergeRecord
deriving DecidableEq, Repr

/-- The fixed history file path, constant `refHistoryFile` in `main.go`. -/
def refHistoryFile : String := ".ref-history"

/-- Embeds `hasAnyLabel` of `main.go`: true when the required set is empty,
or when some required label occurs (lowercased) in the lowercased set of
the pull request's labels.  The Go version builds a `map` keyed by the
lowercased labels; membership in that map is membership of the lowercased
label list. -/
def hasAnyLabel (prLabels required : List String) : Bool :=
  if required.isEmpty then true
  else
    let prLabelSet := prLabels.map lower
    required.any (fun req => prLabelSet.contains (lower req))

/-- Embeds `filterPRs` of `main.go`: keep the pull requests that pass
`hasAnyLabel`, preserving order. -/
def filterPRs (prs : List GitHubPR) (requiredLabels : List String) : List GitHubPR :=
  prs.filter (fun pr => hasAnyLabel pr.labels requiredLabels)

/-- Embeds Go `strings.Split input ","` on the character list: returns the
first comma-free piece and the remaining pieces, so the result is a
structurally nonempty list of pieces (as `strings.Split` with a non-empty
separator always is). -/
def splitComma : List Char → List Char × List (List Char)
  | [] => ([], [])
  | c :: cs =>
    let r := splitComma cs
    if c = ',' then ([], r.1 :: r.2) else (c :: r.1, r.2)

/-- Embeds `parseLabels` of `main.go`: the empty string gives the empty
label list; otherwise the string is split on commas verbatim (no
trimming, no dropping of empty entries). -/
def parseLabels (input : String) : List String :=
  if input = "" then []
  else
    let r := splitComma input.data
    String.mk r.1 :: r.2.map String.mk

/-- One git subprocess invocation issued through `runGitCommand` (or
`exec.Command`) in `main.go`.  The `mergeAbort` constructor stands for the
cleanup command `git merge --abort` that the spec discusses; it lets
theorems state whether the program ever issues such a cleanup. -/
inductive GitCmd where
  | fetchPR (number : Nat) (branch : String)
  | squashMerge (branch : String)
  | commit (message : String)
  | addFile (path : String)
  | push (branch : String) (force : Bool)
  | mergeAbort
deriving DecidableEq, Repr

/-- Outcomes of the external git calls made while processing candidates:
whether the fetch, squash and commit step succeeds for a given pull
request number, the output of `git rev-parse HEAD` (`none` = the command
fails), and the clock value used for record timestamps. -/
structure GitEnv where
  fetchOk : Nat → Bool
  squashOk : Nat → Bool
  commitOk : Nat → Bool
  revParse : Option String
  now : Nat

/-- Embeds Go `strings.TrimSpace`: drop whitespace from both ends. -/
def trimSpace (s : String) : String :=
  String.mk (((s.data.dropWhile Char.isWhitespace).reverse.dropWhile Char.isWhitespace).reverse)

/-- Embeds `getLatestCommitSHA` of `main.go`: the trimmed output of
`git rev-parse HEAD`, or the literal `"unknown"` when the command fails. -/
def getLatestCommitSHA (env : GitEnv) : String :=
  match env.revParse with
  | none => "unknown"
  | some output => trimSpace output

/-- Embeds `createMergeRecord` of `main.go`: pull request number, current
HEAD identifier, clock timestamp. -/
def createMergeRecord (env : GitEnv) (pr : GitHubPR) : MergeRecord :=
  { pr := pr.number, commit := getLatestCommitSHA env, timestamp := env.now }

/-- The scratch branch name `pr-<number>` used by `processSinglePR`. -/
def prBranch (pr : GitHubPR) : String :=
  "pr-" ++ toString pr.number

/-- Embeds `processSinglePR` of `main.go`: fetch the pull request head into
the scratch branch, squash-merge it, commit with the pull request title;
stop at the first failing step.  Returns the git commands issued (the
failing command included) and the step outcome. -/
def processSinglePR (env : GitEnv) (pr : GitHubPR) : List GitCmd × Except String Unit :=
  let branch := prBranch pr
  if !env.fetchOk pr.number then
    ([.fetchPR pr.number branch], .error "fetch PR branch failed")
  else if !env.squashOk pr.number then
    ([.fetchPR pr.number branch, .squashMerge branch], .error "squash merge failed")
  else if !env.commitOk pr.number then
    ([.fetchPR pr.number branch, .squashMerge branch, .commit pr.title],
      .error "create commit failed")
  else
    ([.fetchPR pr.number branch, .squashMerge branch, .commit pr.title], .ok ())

/-- All three steps of `processSinglePR` succeed for this candidate. -/
def stepOk (env : GitEnv) (pr : GitHubPR) : Bool :=
  env.fetchOk pr.number && env.squashOk pr.number && env.commitOk pr.number

/-- Embeds `processPRs` of `main.go`: process the candidates in list order;
a candidate whose processing fails is logged and skipped (`continue`), a
successful one appends a merge record.  Returns the concatenated git
command trace and the record list. -/
def processPRs (env : GitEnv) (prs : List GitHubPR) : List GitCmd × List MergeRecord :=
  match prs with
  | [] => ([], [])
  | pr :: rest =>
    let step := processSinglePR env pr
    let restRun := processPRs env rest
    match step.2 with
    | .error _ => (step.1 ++ restRun.1, restRun.2)
    | .ok _ => (step.1 ++ restRun.1, createMergeRecord env pr :: restRun.2)

/-- Outcomes of the external calls made by `updateRefHistory`: the
`os.WriteFile`, `git add` and `git commit` steps. -/
structure HistEnv where
  writeOk : Bool
  addOk : Bool
  commitOk : Bool

/-- The fixed history commit message used by `updateRefHistory`. -/
def histCommitMsg : String := "chore: update ref-history"

/-- Embeds `updateRefHistory` of `main.go`.  `json.MarshalIndent` cannot
fail on `RefHistory` data, so the file content is modelled as the
structured value itself; `os.WriteFile` replaces the file's previous
content wholesale.  Returns the outcome, the resulting file content and
the git commands issued. -/
def updateRefHistory (env : HistEnv) (merges : List MergeRecord) (prevFile : Option RefHistory) :
    Except String Unit × Option RefHistory × List GitCmd :=
  if !env.writeOk then (.error "file write failed", prevFile, [])
  else
    let newFile := some { merges := merges : RefHistory }
    if !env.addOk then (.error "git add failed", newFile, [.addFile refHistoryFile])
    else if !env.commitOk then
      (.error "git commit failed", newFile, [.addFile refHistoryFile, .commit histCommitMsg])
    else (.ok (), newFile, [.addFile refHistoryFile, .commit histCommitMsg])

/-- Embeds `pushChanges` of `main.go`: one forced push of the target
branch; returns the git error when the push fails. -/
def pushChanges (pushOk : Bool) (targetBranch : String) : Except String Unit × List GitCmd :=
  if pushOk then (.ok (), [.push targetBranch true])
  else (.error "push failed", [.push targetBranch true])

/-- Embeds `Config` of `main.go`. -/
structure Config where
  githubToken : String
  owner : String
  repo : String
  trunkBranch : String
  targetBranch : String
  requiredLabels : List String
  githubOutput : String
deriving DecidableEq, Repr

/-- The flag values `parseConfig` reads (after the `flag` package applied
its defaults: `trunk_branch` defaults to `"main"`, every other flag to the
empty string). -/
structure RawFlags where
  githubToken : String
  owner : String
  repo : String
  trunkBranch : String
  targetBranch : String
  labels : String
  githubOutput : String
deriving DecidableEq, Repr

/-- Embeds `parseConfig` of `main.go`: reject a missing token, owner, repo
or output path (in that order); default the target branch to
`pre-<trunk>`; split the label flag with `parseLabels`. -/
def parseConfig (raw : RawFlags) : Except String Config :=
  if raw.githubToken = "" then .error "missing required parameter github_token"
  else if raw.owner = "" then .error "missing required parameter owner"
  else if raw.repo = "" then .error "missing required parameter repo"
  else if raw.githubOutput = "" then .error "missing required parameter github_output"
  else
    .ok { githubToken := raw.githubToken, owner := raw.owner, repo := raw.repo,
          trunkBranch := raw.trunkBranch,
          targetBranch :=
            if raw.targetBranch = "" then "pre-" ++ raw.trunkBranch else raw.targetBranch,
          requiredLabels := parseLabels raw.labels,
          githubOutput := raw.githubOutput }

/-- Outcomes of the external calls the whole run makes: global git setup,
the pull-request API call (the decoded list, before label filtering),
target-branch preparation, the per-candidate git outcomes, the history
persist outcomes, the prior content of the history file, and the push
outcome. -/
structure RunEnv where
  gitSetupOk : Bool
  apiPRs : Except String (List GitHubPR)
  prepOk : Bool
  git : GitEnv
  hist : HistEnv
  prevHistory : Option RefHistory
  pushOk : Bool

/-- What a whole run produced: the process exit code, whether the deferred
`setOutput` write of `target_branch` ran, the merge records of the run,
and the final content of the history file. -/
structure RunOutcome where
  exitCode : Nat
  outputWritten : Bool
  records : List MergeRecord
  historyFile : Option RefHistory
deriving DecidableEq, Repr

/-- Embeds `main` of `main.go`.  Two Go semantic facts shape the model:
`log.Fatal` calls `os.Exit(1)`, which terminates the process WITHOUT
running deferred functions, so the `setOutput` deferred right after
`mustParseConfig` runs only when `main` returns normally; and `main`
discards the error value returned by `pushChanges`, so a failed push
still ends the run with exit code 0. -/
def mainRun (raw : RawFlags) (env : RunEnv) : RunOutcome :=
  match parseConfig raw with
  | .error _ =>
    { exitCode := 1, outputWritten := false, records := [], historyFile := env.prevHistory }
  | .ok cfg =>
    if !env.gitSetupOk then
      { exitCode := 1, outputWritten := false, records := [], historyFile := env.prevHistory }
    else
      match env.apiPRs with
      | .error _ =>
        { exitCode := 1, outputWritten := false, records := [], historyFile := env.prevHistory }
      | .ok rawPRs =>
        let prs := filterPRs rawPRs cfg.requiredLabels
        if !env.prepOk then
          { exitCode := 1, outputWritten := false, records := [], historyFile := env.prevHistory }
        else
          let merged := (processPRs env.git prs).2
          let persisted := updateRefHistory env.hist merged env.prevHistory
          match persisted.1 with
          | .error _ =>
            { exitCode := 1, outputWritten := false, records := merged,
              historyFile := persisted.2.1 }
          | .ok _ =>
            let _ := pushChanges env.pushOk cfg.targetBranch
            { exitCode := 0, outputWritten := true, records := merged,
              historyFile := persisted.2.1 }

/-- The run got past configuration parsing, git setup, the API call and
branch preparation, i.e. it reached the integration pipeline
(`processPRs`). -/
def reachesPipeline (raw : RawFlags) (env : RunEnv) : Bool :=
  match parseConfig raw with
  | .error _ => false
  | .ok _ =>
    env.gitSetupOk &&
      (match env.apiPRs with | .error _ => false | .ok _ => true) && env.prepOk

/-- Lexicographic order on character lists via code points; on ISO-8601
timestamp strings this is creation-time order. -/
def charsLe : List Char → List Char → Bool
  | [], _ => true
  | _ :: _, [] => false
  | a :: as, b :: bs =>
    if a.toNat < b.toNat then true
    else if b.toNat < a.toNat then false
    else charsLe as bs

/-- Modelled from the spec: insertion into a list ascending by creation
timestamp.  Used only to compare the source's processing order with the
spec's required sorted order; the source itself performs no local sort. -/
def insertByCreated (pr : GitHubPR) : List GitHubPR → List GitHubPR
  | [] => [pr]
  | q :: rest =>
    if charsLe pr.createdAt.data q.createdAt.data then pr :: q :: rest
    else q :: insertByCreated pr rest

/-- Modelled from the spec: sort a candidate list ascending by creation
timestamp (insertion sort). -/
def sortByCreated : List GitHubPR → List GitHubPR
  | [] => []
  | pr :: rest => insertByCreated pr (sortByCreated rest)

/-! Concrete fixtures used by the claim theorems. -/

/-- Pull request 1, created first. -/
def prA : GitHubPR :=
  { number := 1, title := "Feature A", state := "open",
    createdAt := "2024-01-01T00:00:00Z", baseRef := "main", labels := ["next-feature"] }

/-- Pull request 2, created second. -/
def prB : GitHubPR :=
  { number := 2, title := "Feature B", state := "open",
    createdAt := "2024-01-02T00:00:00Z", baseRef := "main", labels := ["next-feature"] }

/-- Every per-candidate git call succeeds. -/
def envAllOk : GitEnv :=
  { fetchOk := fun _ => true, squashOk := fun _ => true, commitOk := fun _ => true,
    revParse := some "abc123", now := 5 }

/-- The fetch step fails for pull request 1; everything else succeeds. -/
def envFetchFail1 : GitEnv :=
  { fetchOk := fun n => n != 1, squashOk := fun _ => true, commitOk := fun _ => true,
    revParse := some "abc123", now := 5 }

/-- The squash step fails for pull request 1; everything else succeeds. -/
def envSquashFail1 : GitEnv :=
  { fetchOk := fun _ => true, squashOk := fun n => n != 1, commitOk := fun _ => true,
    revParse := some "abc123", now := 5 }

/-- A complete, valid flag set. -/
def rawOk : RawFlags :=
  { githubToken := "t", owner := "o", repo := "r", trunkBranch := "main",
    targetBranch := "", labels := "", githubOutput := "out.txt" }

/-- History-file content left over from an earlier run. -/
def oldHist : RefHistory := { merges := [{ pr := 99, commit := "deadbeef", timestamp := 0 }] }

/-- A run in which everything succeeds except the final push. -/
def envPushFail : RunEnv :=
  { gitSetupOk := true, apiPRs := .ok [prA], prepOk := true, git := envAllOk,
    hist := { writeOk := true, addOk := true, commitOk := true },
    prevHistory := none, pushOk := false }

/-- A run in which everything succeeds except the history commit. -/
def envHistFail : RunEnv :=
  { gitSetupOk := true, apiPRs := .ok [prA, prB], prepOk := true, git := envAllOk,
    hist := { writeOk := true, addOk := true, commitOk := false },
    prevHistory := none, pushOk := true }

/-- All three history-persist steps succeed. -/
def histOk : HistEnv := { writeOk := true, addOk := true, commitOk := true }

/-! Helper lemmas shared by several claim theorems. -/

/-- The record list of `processPRs` is the input filtered to the candidates
whose three steps succeed, mapped to their merge records. -/
theorem processPRs_records (env : GitEnv) (prs : List GitHubPR) :
    (processPRs env prs).2 = (prs.filter (stepOk env)).map (createMergeRecord env) := by
  induction prs with
  | nil => rfl
  | cons pr rest ih =>
    by_cases h1 : env.fetchOk pr.number <;> by_cases h2 : env.squashOk pr.number <;>
      by_cases h3 : env.commitOk pr.number <;>
      simp [processPRs, processSinglePR, stepOk, h1, h2, h3, List.filter_cons, ih]

/-- `hasAnyLabel` holds exactly when no label is required or some candidate
label equals some required label after lowercasing. -/
theorem hasAnyLabel_iff (labels req : List String) :
    hasAnyLabel labels req = true ↔
      req = [] ∨ ∃ l ∈ labels, ∃ r ∈ req, lower l = lower r := by
  rcases req with _ | ⟨r, rs⟩
  · simp [hasAnyLabel]
  · simp only [hasAnyLabel, List.isEmpty_cons, if_false, Bool.false_eq_true,
      List.any_eq_true, List.contains_iff_exists_mem_beq, List.mem_map,
      beq_iff_eq, reduceCtorEq, false_or]
    constructor
    · rintro ⟨req, hreq, l, ⟨x, hx, rfl⟩, heq⟩
      exact ⟨x, hx, req, hreq, heq.symm⟩
    · rintro ⟨l, hl, req, hreq, heq⟩
      exact ⟨req, hreq, lower l, ⟨l, hl, rfl⟩, heq.symm⟩

/-! The claim theorems. -/

/-- C1: a candidate whose fetch, squash or commit step fails is skipped and
every later candidate is still processed — the run's record list is exactly
one record per successful candidate, in processing order, and none for the
failed candidates; in particular, for candidates [A(fails), B(succeeds)],
`processPRs` returns exactly one record, for B. -/
theorem failed_candidates_skipped_rest_processed :
    (∀ env prs,
        (processPRs env prs).2 = (prs.filter (stepOk env)).map (createMergeRecord env)) ∧
    (processPRs envFetchFail1 [prA, prB]).2.map MergeRecord.pr = [2] := by
  refine ⟨processPRs_records, ?_⟩
  decide

/-- C2 (documents the code bug): `main` discards the error value returned
by `pushChanges`, so a run whose final force-push fails still terminates
with exit code 0 and the output written — it does not abort with a
non-zero status as the spec requires. -/
theorem push_failure_exits_zero :
    (∀ branch, (pushChanges false branch).1 = Except.error "push failed") ∧
    envPushFail.pushOk = false ∧
    (mainRun rawOk envPushFail).exitCode = 0 ∧
    (mainRun rawOk envPushFail).outputWritten = true := by
  refine ⟨fun branch => rfl, rfl, ?_, ?_⟩ <;> decide

/-- C3 (documents the code bug): after candidate 1's squash step fails, the
program issues no cleanup command at all — the next git command is already
candidate 2's fetch, and `git merge --abort` never appears in the trace —
so the dirty/staged worktree a failed squash leaves behind is not
neutralized before the next candidate. -/
theorem no_cleanup_after_failed_squash :
    (processPRs envSquashFail1 [prA, prB]).1 =
      [GitCmd.fetchPR 1 "pr-1", GitCmd.squashMerge "pr-1",
        GitCmd.fetchPR 2 "pr-2", GitCmd.squashMerge "pr-2", GitCmd.commit "Feature B"] ∧
    GitCmd.mergeAbort ∉ (processPRs envSquashFail1 [prA, prB]).1 := by
  constructor <;> decide

/-- C4: the Label Filter keeps a candidate iff the required set is empty or
the candidate's labels intersect it under case-insensitive comparison; the
output is an in-order subsequence of the input; and a required
"Next-Feature" matches a candidate label "next-feature". -/
theorem filter_keeps_iff_label_intersection :
    (∀ prs req, (filterPRs prs req).Sublist prs) ∧
    (∀ prs req pr, pr ∈ filterPRs prs req ↔
        pr ∈ prs ∧ (req = [] ∨ ∃ l ∈ pr.labels, ∃ r ∈ req, lower l = lower r)) ∧
    hasAnyLabel ["next-feature"] ["Next-Feature"] = true := by
  refine ⟨fun prs req => List.filter_sublist prs, fun prs req pr => ?_, by decide⟩
  rw [filterPRs, List.mem_filter, hasAnyLabel_iff]

/-- C5 counterexample: with every step succeeding and the input
[prB, prA] (newest first), the integration order is [2, 1] — the input
order — while sorting by creation time gives [1, 2]; the integration order
is not the creation-sorted order for an input the API did not sort. -/
theorem integration_order_not_sorted_cex :
    (processPRs envAllOk [prB, prA]).2.map MergeRecord.pr = [2, 1] ∧
    (sortByCreated [prB, prA]).map GitHubPR.number = [1, 2] ∧
    (processPRs envAllOk [prB, prA]).2.map MergeRecord.pr ≠
      (sortByCreated [prB, prA]).map GitHubPR.number := by
  refine ⟨?_, ?_, ?_⟩ <;> decide

/-- C5 (amended): the engine performs no local sort — the integration order
is exactly the input order restricted to the successful candidates, so it
is non-decreasing in creation time exactly when the input already arrives
so ordered (as the program requests from the API): an input non-decreasing
in creation time stays non-decreasing after filtering. -/
theorem integration_order_is_input_order :
    (∀ (env : GitEnv) (prs : List GitHubPR),
        (processPRs env prs).2.map MergeRecord.pr =
          (prs.filter (stepOk env)).map GitHubPR.number) ∧
    (∀ (env : GitEnv) (prs : List GitHubPR),
        prs.Pairwise (fun a b => charsLe a.createdAt.data b.createdAt.data) →
          (prs.filter (stepOk env)).Pairwise
            (fun a b => charsLe a.createdAt.data b.createdAt.data)) := by
  constructor
  · intro env prs
    rw [processPRs_records, List.map_map]
    rfl
  · intro env prs h
    exact List.Pairwise.sublist (List.filter_sublist prs) h

/-- C6 counterexample: a run that reaches the pipeline (valid
configuration; git setup, API call and branch preparation succeed; both
candidates integrate) but whose history commit fails terminates through
`log.Fatal`, which skips the deferred write — `target_branch` is not
written even though the run reached the pipeline. -/
theorem output_missing_after_pipeline_cex :
    reachesPipeline rawOk envHistFail = true ∧
    (mainRun rawOk envHistFail).records ≠ [] ∧
    (mainRun rawOk envHistFail).outputWritten = false := by
  refine ⟨?_, ?_, ?_⟩ <;> decide

/-- C6 (amended): `target_branch` is written exactly when the run
terminates normally (exit code 0): every fatal termination — configuration,
setup, or history-persist failure alike — skips the deferred write, while a
push failure does not prevent it because its error is discarded. -/
theorem output_written_iff_exit_zero :
    ∀ (raw : RawFlags) (env : RunEnv),
      (mainRun raw env).outputWritten = true ↔ (mainRun raw env).exitCode = 0 := by
  intro raw env
  unfold mainRun
  repeat' split
  all_goals try simp
  rename_i x1 cfg heq1 h1 x2 rawPRs heq2 h2
  rcases h : (updateRefHistory env.hist
      (processPRs env.git (filterPRs rawPRs cfg.requiredLabels)).2 env.prevHistory).1
    with e | u <;> simp [h]

/-- C7: when the persist steps succeed, the history file ends up containing
exactly this run's records in integration order — whatever it contained
before is discarded — and exactly one `git add` of the single history file
plus one commit with the fixed message are issued; concretely, a run with
successes 1 and 2 over stale prior content yields exactly the records
[1, 2]. -/
theorem history_file_exactly_this_run :
    (∀ merges prevFile,
        updateRefHistory histOk merges prevFile =
          (Except.ok (), some ({ merges := merges } : RefHistory),
            [GitCmd.addFile refHistoryFile, GitCmd.commit histCommitMsg])) ∧
    (updateRefHistory histOk (processPRs envAllOk [prA, prB]).2 (some oldHist)).2.1.map
        (fun h => h.merges.map MergeRecord.pr) = some [1, 2] := by
  exact ⟨fun merges prevFile => rfl, by decide⟩

/-- C8: with an empty required-label set the Label Filter returns its input
unchanged (identity). -/
theorem filter_empty_required_identity :
    ∀ prs, filterPRs prs [] = prs := by
  intro prs
  simp [filterPRs, hasAnyLabel]

/-- C9: label parsing splits the configured string on commas verbatim — no
trimming, no dropping of empty entries; only the exactly-empty string gives
the empty (match-all) required set; "," gives two empty entries; "a, b"
gives ["a", " b"], whose entries match candidate labels only
character-for-character after lowercasing, so "a, b" does not make the
label "b" qualify though it does make the label "a" qualify. -/
theorem labels_split_verbatim :
    parseLabels "" = [] ∧
    (∀ s, s ≠ "" → parseLabels s ≠ []) ∧
    parseLabels "," = ["", ""] ∧
    parseLabels "a, b" = ["a", " b"] ∧
    hasAnyLabel ["b"] (parseLabels "a, b") = false ∧
    hasAnyLabel ["a"] (parseLabels "a, b") = true := by
  refine ⟨rfl, fun s hs => ?_, by decide, by decide, by decide, by decide⟩
  simp [parseLabels, hs]

/-- C10: creating a merge record never fails — the record always carries
the candidate's number; when `git rev-parse HEAD` fails, the commit field
is the literal "unknown" (in particular non-empty); when it succeeds, the
field is the trimmed command output, which is non-empty whenever that
output trims to a non-empty string. -/
theorem record_creation_never_fails :
    (∀ env pr, (createMergeRecord env pr).pr = pr.number) ∧
    (∀ env pr, env.revParse = none → (createMergeRecord env pr).commit = "unknown") ∧
    (∀ env pr, env.revParse = none → (createMergeRecord env pr).commit ≠ "") ∧
    (∀ env pr s, env.revParse = some s →
        (createMergeRecord env pr).commit = trimSpace s) ∧
    (∀ env pr s, env.revParse = some s → trimSpace s ≠ "" →
        (createMergeRecord env pr).commit ≠ "") := by
  refine ⟨fun env pr => rfl, ?_, ?_, ?_, ?_⟩
  · intro env pr h
    simp [createMergeRecord, getLatestCommitSHA, h]
  · intro env pr h
    simp [createMergeRecord, getLatestCommitSHA, h]
  · intro env pr s h
    simp [createMergeRecord, getLatestCommitSHA, h]
  · intro env pr s h hne
    simpa [createMergeRecord, getLatestCommitSHA, h] using hne

end FeatureBranching
